import Mathlib

/-
  Verification development for the agent coordination core of the
  kasparro agentic content system: the publish/subscribe MessageBus,
  the capability-indexed AgentRegistry, the dependency-aware TaskQueue,
  and the OrchestratorAgent pipeline state machine.

  The TypeScript sources are embedded shallowly:
  - JS `Map` is modelled as an insertion-ordered association list
    (`Map.set` updates in place when the key exists, otherwise appends,
    matching JS Map iteration order).
  - JS `Set` is modelled as a duplicate-free list in insertion order.
  - Wall-clock fields (`Date` timestamps such as `registeredAt`,
    `lastHeartbeat`, `createdAt`, `startedAt`, `completedAt`,
    `executionTimeMs`) are omitted: no claim depends on real time, and
    `generateTaskId` / `generateMessageId` are modelled with the counter
    component only (the `Date.now()` part of the id string is dropped).
  - Handler closures are identified by numeric handler ids; dispatch is
    modelled by returning, in order, the listener records whose guard
    passes, exactly as the EventEmitter callback registered in
    `MessageBus.subscribe` does.
-/

namespace Coord

/-- JS `Map.get`: value of the first (unique) entry with the key. -/
def mapGet {α : Type} (m : List (String × α)) (k : String) : Option α :=
  (m.find? (fun p => p.1 = k)).map (fun p => p.2)

/-- JS `Map.set`: update in place if the key exists, else append. -/
def mapSet {α : Type} (m : List (String × α)) (k : String) (v : α) :
    List (String × α) :=
  if m.any (fun p => p.1 = k) then
    m.map (fun p => if p.1 = k then (k, v) else p)
  else
    m ++ [(k, v)]

/-- JS `Map.delete`: remove the entry with the key. -/
def mapDelete {α : Type} (m : List (String × α)) (k : String) :
    List (String × α) :=
  m.filter (fun p => p.1 ≠ k)

/-- JS `Map.has`. -/
def mapHas {α : Type} (m : List (String × α)) (k : String) : Bool :=
  m.any (fun p => p.1 = k)

/-- JS `Set.add`: append if absent (sets are duplicate-free lists). -/
def setAdd (s : List String) (x : String) : List String :=
  if x ∈ s then s else s ++ [x]

/-- JS `Set.delete`: remove the element. -/
def setDelete (s : List String) (x : String) : List String :=
  s.filter (fun y => y ≠ x)

end Coord

namespace MessageBus

/-- `AgentMessage` from MessageBus.ts; `type` is the topic string,
`target` absent means broadcast.  The payload is not inspected by the
bus, so it is left out of the delivery model. -/
structure Message where
  id : Nat
  topic : String
  source : String
  target : Option String
  correlationId : Option Nat
  deriving Repr, DecidableEq

/-- The `subscriptions` map entry from MessageBus.ts (`Subscription`):
agent id, message type, and the handler (identified by a numeric id). -/
structure Subscription where
  agentId : String
  messageType : String
  handlerId : Nat
  deriving Repr, DecidableEq

/-- An EventEmitter listener registered by `MessageBus.subscribe`: the
closure captures `agentId` and `handler` and is keyed by the message
type.  `MessageBus.unsubscribe` never removes these. -/
structure Listener where
  agentId : String
  messageType : String
  handlerId : Nat
  deriving Repr, DecidableEq

/-- The bus state: the EventEmitter's listener list (in registration
order), the `subscriptions` map, the message history and the id
counter. -/
structure BusState where
  listeners : List Listener
  subscriptions : List (String × List Subscription)
  history : List Message
  messageIdCounter : Nat
  deriving Repr, DecidableEq

/-- The freshly constructed bus. -/
def BusState.empty : BusState :=
  { listeners := [], subscriptions := [], history := [], messageIdCounter := 0 }

/-- `MessageBus.subscribe(agentId, messageType, handler)`: push a
`Subscription` onto the map entry (created if missing) and register an
EventEmitter listener that will invoke the handler when the message has
no target or targets this agent. -/
def subscribe (s : BusState) (agentId messageType : String) (handlerId : Nat) :
    BusState :=
  let entry := (Coord.mapGet s.subscriptions messageType).getD []
  { s with
    subscriptions :=
      Coord.mapSet s.subscriptions messageType
        (entry ++ [{ agentId := agentId, messageType := messageType,
                     handlerId := handlerId }])
    listeners :=
      s.listeners ++ [{ agentId := agentId, messageType := messageType,
                        handlerId := handlerId }] }

/-- `MessageBus.unsubscribe(agentId, messageType)`: filter the agent's
entries out of the `subscriptions` map.  The EventEmitter listeners
registered by `subscribe` are left untouched, exactly as in the
source. -/
def unsubscribe (s : BusState) (agentId messageType : String) : BusState :=
  match Coord.mapGet s.subscriptions messageType with
  | none => s
  | some subs =>
      { s with
        subscriptions :=
          Coord.mapSet s.subscriptions messageType
            (subs.filter (fun sub => sub.agentId ≠ agentId)) }

/-- The guard inside the EventEmitter callback of `subscribe`:
`!message.target || message.target === agentId`.  In JS,
`!message.target` is true both when the target is absent and when it is
the empty string (the empty string is falsy), so a message published
with target `""` is broadcast to every subscriber on the topic. -/
def deliversTo (target : Option String) (agentId : String) : Prop :=
  target = none ∨ target = some "" ∨ target = some agentId

instance (target : Option String) (agentId : String) :
    Decidable (deliversTo target agentId) := by
  unfold deliversTo; infer_instance

/-- The listeners whose handler fires when a message of topic `topic`
with optional `target` is emitted, in registration order: the
EventEmitter calls every listener registered for `topic`, and each
listener's closure then checks the target guard. -/
def invokedListeners (s : BusState) (topic : String) (target : Option String) :
    List Listener :=
  s.listeners.filter
    (fun l => l.messageType = topic ∧ deliversTo target l.agentId)

/-- `MessageBus.publish(source, type, payload, options)`: build the
message, append it to history, emit to subscribers.  Returns the new
state, the message, and the listeners whose handlers were invoked. -/
def publish (s : BusState) (source topic : String) (target : Option String)
    (correlationId : Option Nat) : BusState × Message × List Listener :=
  let msg : Message :=
    { id := s.messageIdCounter + 1, topic := topic, source := source,
      target := target, correlationId := correlationId }
  ({ s with
      history := s.history ++ [msg]
      messageIdCounter := s.messageIdCounter + 1 },
   msg,
   invokedListeners s topic target)

end MessageBus

namespace AgentRegistry

/-- `AgentCapability` from AgentRegistry.ts. -/
structure Capability where
  name : String
  description : String
  inputTypes : List String
  outputTypes : List String
  deriving Repr, DecidableEq

/-- `AgentStatus` from AgentRegistry.ts. -/
inductive AgentStatus
  | INITIALIZING
  | READY
  | BUSY
  | ERROR
  | OFFLINE
  deriving Repr, DecidableEq

/-- `AgentRecord` from AgentRegistry.ts (wall-clock fields omitted,
metadata not inspected by any claim). -/
structure AgentRecord where
  id : String
  agentType : String
  capabilities : List Capability
  status : AgentStatus
  deriving Repr, DecidableEq

/-- Bus messages published by the registry and the task queue; only the
payload fields the coordination core itself consumes are retained. -/
inductive BusEvent
  | agentRegistered (agentId : String)
  | agentReady (agentId : String)
  | taskAssigned (taskId : String) (target : String)
  | taskCompleted (source : String) (taskId : String) (success : Bool)
  deriving Repr, DecidableEq

/-- The registry's two maps: `agents` and the inverted
`capabilityIndex` from capability name to the set of agent ids. -/
structure RegistryState where
  agents : List (String × AgentRecord)
  capabilityIndex : List (String × List String)
  deriving Repr, DecidableEq

/-- The freshly constructed registry. -/
def RegistryState.empty : RegistryState :=
  { agents := [], capabilityIndex := [] }

/-- `AgentRegistry.register(id, type, capabilities, metadata)`: store
the record with status `INITIALIZING`, index every capability name, and
publish an `AGENT_REGISTERED` broadcast. -/
def register (r : RegistryState) (id agentType : String)
    (capabilities : List Capability) :
    RegistryState × AgentRecord × List BusEvent :=
  let record : AgentRecord :=
    { id := id, agentType := agentType, capabilities := capabilities,
      status := AgentStatus.INITIALIZING }
  let idx := capabilities.foldl
    (fun idx cap =>
      Coord.mapSet idx cap.name
        (Coord.setAdd ((Coord.mapGet idx cap.name).getD []) id))
    r.capabilityIndex
  ({ agents := Coord.mapSet r.agents id record, capabilityIndex := idx },
   record, [BusEvent.agentRegistered id])

/-- `AgentRegistry.unregister(id)`: `false` and no change when the id
is unknown; otherwise remove the id from the index entry of each
capability in the stored record, delete the record, and return
`true`. -/
def unregister (r : RegistryState) (id : String) : Bool × RegistryState :=
  match Coord.mapGet r.agents id with
  | none => (false, r)
  | some record =>
      let idx := record.capabilities.foldl
        (fun idx cap =>
          match Coord.mapGet idx cap.name with
          | none => idx
          | some agentSet =>
              Coord.mapSet idx cap.name (Coord.setDelete agentSet id))
        r.capabilityIndex
      (true, { agents := Coord.mapDelete r.agents id, capabilityIndex := idx })

/-- `AgentRegistry.updateStatus(id, status)`: update the stored record
when it exists and publish `AGENT_READY` when the new status is
`READY`. -/
def updateStatus (r : RegistryState) (id : String) (status : AgentStatus) :
    RegistryState × List BusEvent :=
  match Coord.mapGet r.agents id with
  | none => (r, [])
  | some record =>
      let r' := { r with
        agents := Coord.mapSet r.agents id { record with status := status } }
      if status = AgentStatus.READY then (r', [BusEvent.agentReady id])
      else (r', [])

/-- `AgentRegistry.findByCapability(name)`: resolve the indexed ids
through the agents map, dropping ids with no record. -/
def findByCapability (r : RegistryState) (capabilityName : String) :
    List AgentRecord :=
  match Coord.mapGet r.capabilityIndex capabilityName with
  | none => []
  | some agentIds => agentIds.filterMap (fun id => Coord.mapGet r.agents id)

/-- `AgentRegistry.findReadyByCapability(name)`. -/
def findReadyByCapability (r : RegistryState) (capabilityName : String) :
    List AgentRecord :=
  (findByCapability r capabilityName).filter
    (fun a => a.status = AgentStatus.READY)

end AgentRegistry

namespace TaskQueue

open AgentRegistry

/-- `TaskPriority` from TaskQueue; the numeric enum values drive the
backlog ordering comparison. -/
inductive TaskPriority
  | LOW
  | NORMAL
  | HIGH
  | CRITICAL
  deriving Repr, DecidableEq

/-- The numeric value of the TS enum (`LOW = 0 … CRITICAL = 3`). -/
def TaskPriority.val : TaskPriority → Nat
  | .LOW => 0
  | .NORMAL => 1
  | .HIGH => 2
  | .CRITICAL => 3

/-- `TaskStatus` from TaskQueue. -/
inductive TaskStatus
  | PENDING
  | ASSIGNED
  | IN_PROGRESS
  | COMPLETED
  | FAILED
  | CANCELLED
  deriving Repr, DecidableEq

/-- `Task` from TaskQueue (wall-clock fields omitted; payload, result
and error kept as opaque strings, never inspected by the queue). -/
structure Task where
  id : String
  taskType : String
  requiredCapability : String
  payload : String
  priority : TaskPriority
  status : TaskStatus
  assignedTo : Option String
  result : Option String
  error : Option String
  retryCount : Nat
  maxRetries : Nat
  dependencies : List String
  deriving Repr, DecidableEq

/-- Combined state of the queue and the registry it consults: the
`tasks` map, the `pendingQueue` of task ids, the id counter, and the
log of bus messages published so far.  The bus itself is bypassed: the
queue's only subscription is its own `TASK_COMPLETED` handler, and
EventEmitter dispatch is synchronous, so `completeTask`/`failTask`
running `handleTaskCompletion` directly is observationally the same. -/
structure SysState where
  registry : RegistryState
  tasks : List (String × Task)
  pendingQueue : List String
  taskIdCounter : Nat
  log : List BusEvent
  deriving Repr, DecidableEq

/-- A fresh queue over a fresh registry. -/
def SysState.empty : SysState :=
  { registry := RegistryState.empty, tasks := [], pendingQueue := [],
    taskIdCounter := 0, log := [] }

/-- Register an agent through the shared registry, logging the
published broadcast. -/
def registerAgent (s : SysState) (id agentType : String)
    (capabilities : List Capability) : SysState :=
  let res := AgentRegistry.register s.registry id agentType capabilities
  { s with registry := res.1, log := s.log ++ res.2.2 }

/-- Update an agent's status through the shared registry, logging any
published broadcast. -/
def updateAgentStatus (s : SysState) (id : String) (status : AgentStatus) :
    SysState :=
  let upd := AgentRegistry.updateStatus s.registry id status
  { s with registry := upd.1, log := s.log ++ upd.2 }

/-- `generateTaskId` with the counter already incremented by the
caller (the `Date.now()` component of the id string is omitted). -/
def generateTaskId (counter : Nat) : String :=
  "task_" ++ Nat.repr counter

/-- The insertion loop of `TaskQueue.enqueue`: walk the backlog and
insert before the first entry whose task exists and has strictly lower
priority; push to the back when no such entry is found. -/
def insertByPriority (tasks : List (String × Task)) (task : Task)
    (taskId : String) : List String → List String
  | [] => [taskId]
  | qid :: rest =>
      match Coord.mapGet tasks qid with
      | some existingTask =>
          if existingTask.priority.val < task.priority.val then
            taskId :: qid :: rest
          else
            qid :: insertByPriority tasks task taskId rest
      | none => qid :: insertByPriority tasks task taskId rest

/-- `TaskQueue.enqueue(taskId)`. -/
def enqueue (s : SysState) (taskId : String) : SysState :=
  match Coord.mapGet s.tasks taskId with
  | none => s
  | some task =>
      { s with pendingQueue := insertByPriority s.tasks task taskId s.pendingQueue }

/-- `TaskQueue.submit(type, requiredCapability, payload, options)`:
build the task with the option defaults of the source
(`priority ?? NORMAL`, `maxRetries ?? 3`, `dependencies ?? []`),
store it and enqueue it. -/
def submit (s : SysState) (taskType requiredCapability payload : String)
    (priority : Option TaskPriority) (dependencies : Option (List String))
    (maxRetries : Option Nat) : SysState × Task :=
  let counter := s.taskIdCounter + 1
  let task : Task :=
    { id := generateTaskId counter, taskType := taskType,
      requiredCapability := requiredCapability, payload := payload,
      priority := priority.getD TaskPriority.NORMAL,
      status := TaskStatus.PENDING, assignedTo := none, result := none,
      error := none, retryCount := 0, maxRetries := maxRetries.getD 3,
      dependencies := dependencies.getD [] }
  let s' := { s with taskIdCounter := counter,
                     tasks := Coord.mapSet s.tasks task.id task }
  (enqueue s' task.id, task)

/-- `TaskQueue.areDependenciesMet(task)`: every dependency id resolves
to a task in status `COMPLETED`. -/
def areDependenciesMet (tasks : List (String × Task)) (task : Task) : Bool :=
  task.dependencies.all (fun depId =>
    match Coord.mapGet tasks depId with
    | some depTask =>
        match depTask.status with
        | TaskStatus.COMPLETED => true
        | _ => false
    | none => false)

/-- One iteration of the `processQueue` scan: skip missing, non-pending
or dependency-blocked tasks and tasks with no ready capable agent;
otherwise assign to the first ready agent with the capability, mark
that agent `BUSY`, and publish the targeted assignment message. -/
def assignStep (acc : SysState × List String) (taskId : String) :
    SysState × List String :=
  match Coord.mapGet acc.1.tasks taskId with
  | none => acc
  | some task =>
      if task.status ≠ TaskStatus.PENDING then acc
      else if ¬ areDependenciesMet acc.1.tasks task then acc
      else
        match AgentRegistry.findReadyByCapability acc.1.registry
            task.requiredCapability with
        | [] => acc
        | agent :: _ =>
            ({ acc.1 with
                tasks := Coord.mapSet acc.1.tasks taskId
                  { task with status := TaskStatus.ASSIGNED,
                              assignedTo := some agent.id },
                registry := (AgentRegistry.updateStatus acc.1.registry
                  agent.id AgentStatus.BUSY).1,
                log := acc.1.log
                  ++ (AgentRegistry.updateStatus acc.1.registry
                        agent.id AgentStatus.BUSY).2
                  ++ [BusEvent.taskAssigned taskId agent.id] },
             acc.2 ++ [taskId])

/-- `TaskQueue.processQueue()`: scan the backlog once in order, then
drop the assigned ids from the backlog. -/
def processQueue (s : SysState) : SysState :=
  let scanned := s.pendingQueue.foldl assignStep (s, [])
  { scanned.1 with
    pendingQueue :=
      scanned.1.pendingQueue.filter (fun id => !(scanned.2.contains id)) }

/-- `TaskQueue.handleTaskCompletion(taskId, result)`: on success mark
`COMPLETED` and record the result; on failure increment `retryCount`
and either re-enqueue as `PENDING` (clearing `assignedTo`) or mark
`FAILED` recording the error; then, if the task's (current)
`assignedTo` is still set, free that agent back to `READY`; finally
re-run `processQueue`. -/
def handleTaskCompletion (s : SysState) (taskId : String) (success : Bool)
    (resultData resultError : Option String) : SysState :=
  match Coord.mapGet s.tasks taskId with
  | none => s
  | some task =>
      let outcome :=
        if success then
          let t := { task with status := TaskStatus.COMPLETED,
                               result := resultData }
          ({ s with tasks := Coord.mapSet s.tasks taskId t }, t)
        else
          let rc := task.retryCount + 1
          if rc < task.maxRetries then
            let t := { task with retryCount := rc,
                                 status := TaskStatus.PENDING,
                                 assignedTo := none }
            (enqueue { s with tasks := Coord.mapSet s.tasks taskId t } taskId, t)
          else
            let t := { task with retryCount := rc,
                                 status := TaskStatus.FAILED,
                                 error := resultError }
            ({ s with tasks := Coord.mapSet s.tasks taskId t }, t)
      let s1 := outcome.1
      let s2 :=
        match outcome.2.assignedTo with
        | some agentId =>
            let upd :=
              AgentRegistry.updateStatus s1.registry agentId AgentStatus.READY
            { s1 with registry := upd.1, log := s1.log ++ upd.2 }
        | none => s1
      processQueue s2

/-- `TaskQueue.completeTask(taskId, result)`: publish the successful
`TASK_COMPLETED` message, which the queue's own subscriber consumes
synchronously as `handleTaskCompletion`. -/
def completeTask (s : SysState) (taskId : String) (resultData : String) :
    SysState :=
  match Coord.mapGet s.tasks taskId with
  | none => s
  | some task =>
      let src := task.assignedTo.getD "unknown"
      let s' := { s with log := s.log ++ [BusEvent.taskCompleted src taskId true] }
      handleTaskCompletion s' taskId true (some resultData) none

/-- `TaskQueue.failTask(taskId, error)`: publish the failed
`TASK_COMPLETED` message, consumed synchronously as
`handleTaskCompletion`. -/
def failTask (s : SysState) (taskId : String) (error : String) : SysState :=
  match Coord.mapGet s.tasks taskId with
  | none => s
  | some task =>
      let src := task.assignedTo.getD "unknown"
      let s' := { s with log := s.log ++ [BusEvent.taskCompleted src taskId false] }
      handleTaskCompletion s' taskId false none (some error)

/-- `TaskQueue.startTask(taskId)`. -/
def startTask (s : SysState) (taskId : String) : SysState :=
  match Coord.mapGet s.tasks taskId with
  | some task =>
      if task.status = TaskStatus.ASSIGNED then
        let t := { task with status := TaskStatus.IN_PROGRESS }
        { s with tasks := Coord.mapSet s.tasks taskId t }
      else s
  | none => s

end TaskQueue

namespace OrchestratorAgent

/-- The `PipelineState.status` values of OrchestratorAgent.ts. -/
inductive PipeStatus
  | idle
  | running
  | completed
  | failed
  deriving Repr, DecidableEq

/-- The `pages` record of `PipelineState`: the three optional assembled
pages, stored by `handlePageAssembled`'s switch (page payloads kept as
opaque strings). -/
structure Pages where
  faq : Option String
  product : Option String
  comparison : Option String
  deriving Repr, DecidableEq

/-- How the per-run promise of `runPipeline` settles: `resolveCompletion`
delivers the collected pages plus the `pagesGenerated` list of
`createOutput`; `rejectCompletion` delivers the error message. -/
inductive Outcome
  | resolved (pages : Pages) (pagesGenerated : List String)
  | rejected (error : String)
  deriving Repr, DecidableEq

/-- `PipelineState` of OrchestratorAgent.ts together with the per-run
completion promise (`outcome` is `none` while the promise is pending)
and the log of pipeline events published.  Fields not consulted by the
completion logic (`rawData`, `product`, `questionSet`, `contentBlocks`,
the execution log, timestamps) are omitted. -/
structure PipelineState where
  status : PipeStatus
  expectedPages : List String
  receivedPages : List String
  pages : Pages
  outcome : Option Outcome
  published : List String
  deriving Repr, DecidableEq

/-- A JS promise settles only once; later resolve/reject calls are
ignored. -/
def settle (o : Option Outcome) (x : Outcome) : Option Outcome :=
  match o with
  | none => some x
  | some y => some y

/-- `createInitialState()`. -/
def createInitialState : PipelineState :=
  { status := PipeStatus.idle, expectedPages := [], receivedPages := [],
    pages := { faq := none, product := none, comparison := none },
    outcome := none, published := [] }

/-- `runPipeline(rawData, pagesToGenerate)`: reset the per-run state,
mark it running, record the expected page set, publish
`PIPELINE_START` and `RAW_DATA_RECEIVED`, and leave the fresh promise
pending. -/
def runPipeline (pagesToGenerate : List String) : PipelineState :=
  let s0 := createInitialState
  { s0 with
    status := PipeStatus.running,
    expectedPages := pagesToGenerate.foldl Coord.setAdd s0.expectedPages,
    published := ["pipeline:start", "data:raw_received"] }

/-- `checkPipelineCompletion()`: when every expected page has been
received (`allReceived`) and the run is still `running`, mark it
`completed`, publish `PIPELINE_COMPLETE`, and resolve the promise with
the collected pages and the received-page list (`createOutput`). -/
def checkPipelineCompletion (s : PipelineState) : PipelineState :=
  if s.expectedPages.all (fun p => s.receivedPages.contains p)
      ∧ s.status = PipeStatus.running then
    { s with
      status := PipeStatus.completed,
      published := s.published ++ ["pipeline:complete"],
      outcome := settle s.outcome (Outcome.resolved s.pages s.receivedPages) }
  else s

/-- The page-storing switch of `handlePageAssembled`: only `faq`,
`product` and `comparison` have cases; other page types are not
stored. -/
def storePage (pages : Pages) (pageType page : String) : Pages :=
  if pageType = "faq" then { pages with faq := some page }
  else if pageType = "product" then { pages with product := some page }
  else if pageType = "comparison" then { pages with comparison := some page }
  else pages

/-- `handlePageAssembled(message)`: store the page under its type, add
the type to `receivedPages`, then check for completion. -/
def handlePageAssembled (s : PipelineState) (pageType page : String) :
    PipelineState :=
  checkPipelineCompletion
    { s with pages := storePage s.pages pageType page,
             receivedPages := Coord.setAdd s.receivedPages pageType }

/-- `handleAgentError(message)`: while the run is `running`, mark it
`failed` and reject the promise with the wrapped error message;
otherwise ignore the event. -/
def handleAgentError (s : PipelineState) (error : String) : PipelineState :=
  if s.status = PipeStatus.running then
    { s with
      status := PipeStatus.failed,
      outcome := settle s.outcome
        (Outcome.rejected ("Pipeline failed: " ++ error)) }
  else s

/-- The two `onMessage` cases that drive run completion
(`PAGE_ASSEMBLED` and `AGENT_ERROR`); the other handled message types
only record observability data. -/
inductive OEvent
  | pageAssembled (pageType page : String)
  | agentError (error : String)
  deriving Repr, DecidableEq

/-- `onMessage` dispatch over the completion-relevant events. -/
def onMessage (s : PipelineState) : OEvent → PipelineState
  | OEvent.pageAssembled pt pg => handlePageAssembled s pt pg
  | OEvent.agentError err => handleAgentError s err

/-- Process a list of bus events in order. -/
def runEvents (s : PipelineState) (es : List OEvent) : PipelineState :=
  es.foldl onMessage s

end OrchestratorAgent

/-- A capability record used by the concrete scenarios. -/
def AgentRegistry.capC : AgentRegistry.Capability :=
  { name := "c", description := "demo", inputTypes := [], outputTypes := [] }

/-- A one-agent registry: `register(empty, "a1", "T", [capC])`. -/
def AgentRegistry.regDemo : AgentRegistry.RegistryState :=
  (AgentRegistry.register AgentRegistry.RegistryState.empty "a1" "T"
    [AgentRegistry.capC]).1

/-- The record `register` stores for the demo registration. -/
def AgentRegistry.recDemo : AgentRegistry.AgentRecord :=
  { id := "a1", agentType := "T", capabilities := [AgentRegistry.capC],
    status := AgentRegistry.AgentStatus.INITIALIZING }

namespace TaskQueue

/-- The `TASK_ASSIGNED` messages published so far, as
(task id, target worker id) pairs in publish order. -/
def assignmentLog (s : SysState) : List (String × String) :=
  s.log.filterMap (fun e =>
    match e with
    | AgentRegistry.BusEvent.taskAssigned tid target => some (tid, target)
    | _ => none)

/-- How `processQueue` may rewrite a stored task during one scan: it
never touches `retryCount` or `maxRetries`, and it rewrites the record
at all only when the task was `PENDING` (to assign it). -/
def taskEvol (t u : Task) : Prop :=
  u.retryCount = t.retryCount ∧ u.maxRetries = t.maxRetries
    ∧ (¬ t.status = TaskStatus.PENDING → u = t)

/-- Dependency id `d` does not resolve to a `COMPLETED` task (either it
is unknown or its task is in another status). -/
def depBroken (tasks : List (String × Task)) (d : String) : Prop :=
  ∀ u, Coord.mapGet tasks d = some u → ¬ u.status = TaskStatus.COMPLETED

/-- The conditions under which one `processQueue` scan iteration leaves
the state untouched for a backlog entry: unknown task, non-pending
task, unmet dependencies, or no ready capable agent. -/
def skipCondition (s : SysState) (qid : String) : Prop :=
  Coord.mapGet s.tasks qid = none
  ∨ ∃ u, Coord.mapGet s.tasks qid = some u
      ∧ (¬ u.status = TaskStatus.PENDING
          ∨ areDependenciesMet s.tasks u = false
          ∨ AgentRegistry.findReadyByCapability s.registry
              u.requiredCapability = [])

/-- A queue over a registry holding one `READY` worker w advertising
capability c. -/
def qReady : SysState :=
  updateAgentStatus
    (registerAgent SysState.empty "w" "W" [AgentRegistry.capC])
    "w" AgentRegistry.AgentStatus.READY

/-- C5 scenario, backlog phase: submit LOW, HIGH, NORMAL in that
order against the single ready worker. -/
def c5Backlog : SysState :=
  let sA := (submit qReady "t" "c" "p" (some TaskPriority.LOW) none none).1
  let sB := (submit sA "t" "c" "p" (some TaskPriority.HIGH) none none).1
  (submit sB "t" "c" "p" (some TaskPriority.NORMAL) none none).1

/-- The record `submit` stored under task_1 in `c5Backlog` (the LOW
submission). -/
def c5LowTask : Task :=
  { id := "task_1", taskType := "t", requiredCapability := "c",
    payload := "p", priority := TaskPriority.LOW,
    status := TaskStatus.PENDING, assignedTo := none, result := none,
    error := none, retryCount := 0, maxRetries := 3, dependencies := [] }

/-- C5 scenario: run the queue over the backlog and complete each
assignment as it arrives. -/
def c5Run : SysState :=
  completeTask (completeTask (processQueue c5Backlog) "task_2" "r")
    "task_3" "r"

/-- C4 scenario, retry branch: one task (default `maxRetries = 3`)
assigned to w, then one failure report. -/
def c4RetryRun : SysState :=
  failTask (processQueue (submit qReady "t" "c" "p" none none none).1)
    "task_1" "err"

/-- C4 scenario, exhaustion branch: one task with `maxRetries = 1`
assigned to w, then one failure report. -/
def c4FailRun : SysState :=
  failTask (processQueue (submit qReady "t" "c" "p" none none (some 1)).1)
    "task_1" "err"

/-- C3 scenario: a task submitted with `maxRetries = 2` on which a
failure outcome is reported three times. -/
def c3Run : SysState :=
  failTask (failTask (failTask
    (submit SysState.empty "t" "c" "p" none none (some 2)).1
    "task_1" "e1") "task_1" "e2") "task_1" "e3"

/-- The numeric priority a backlog entry resolves to (0 when the id is
unknown; backlog entries always resolve in reachable states). -/
def prioOf (tasks : List (String × Task)) (qid : String) : Nat :=
  ((Coord.mapGet tasks qid).map (fun t => t.priority.val)).getD 0

/-- The state right after submitting the C3 task (`maxRetries = 2`). -/
def c3SubmitState : SysState :=
  (submit SysState.empty "t" "c" "p" none none (some 2)).1

/-- The task record `submit` returns for the C3 scenario. -/
def c3SubmitTask : Task :=
  (submit SysState.empty "t" "c" "p" none none (some 2)).2

/-- C6 scenario, submissions: task_2 depends on task_1. -/
def c6Submitted : SysState :=
  (submit ((submit qReady "t" "c" "p" none none none).1)
    "t" "c" "p" none (some ["task_1"]) none).1

/-- C6 scenario, blocked phase: after one `processQueue`, task_1 is
assigned and task_2 must still be pending. -/
def c6Blocked : SysState :=
  processQueue c6Submitted

/-- C6 scenario via operations only: task_1 submitted, assigned and
completed, then task_2 submitted depending on the completed task_1 —
the state just before the next `processQueue` call. -/
def c6ReadyForB : SysState :=
  (submit
    (completeTask (processQueue (submit qReady "t" "c" "p" none none none).1)
      "task_1" "r")
    "t" "c" "p" none (some ["task_1"]) none).1

/-- The record of worker w when `READY`. -/
def wReady : AgentRegistry.AgentRecord :=
  { id := "w", agentType := "W", capabilities := [AgentRegistry.capC],
    status := AgentRegistry.AgentStatus.READY }

/-- The record `submit` stored under task_1 in `c6Submitted`. -/
def c6TaskA : Task :=
  { id := "task_1", taskType := "t", requiredCapability := "c",
    payload := "p", priority := TaskPriority.NORMAL,
    status := TaskStatus.PENDING, assignedTo := none, result := none,
    error := none, retryCount := 0, maxRetries := 3, dependencies := [] }

/-- The record `submit` stored under task_2 in `c6ReadyForB`. -/
def c6TaskB : Task :=
  { id := "task_2", taskType := "t", requiredCapability := "c",
    payload := "p", priority := TaskPriority.NORMAL,
    status := TaskStatus.PENDING, assignedTo := none, result := none,
    error := none, retryCount := 0, maxRetries := 3,
    dependencies := ["task_1"] }

/-- C6 scenario, unblocked phase: completing task_1 re-runs the queue,
which may now assign task_2. -/
def c6Completed : SysState :=
  completeTask c6Blocked "task_1" "r"

end TaskQueue

namespace Coord

theorem mapGet_cons {α : Type} (k' : String) (v : α) (m : List (String × α))
    (k : String) :
    mapGet ((k', v) :: m) k = if k' = k then some v else mapGet m k := by
  by_cases h : k' = k <;> simp [mapGet, List.find?, h]


theorem mapGet_mapDelete {α : Type} (m : List (String × α)) (k k' : String) :
    mapGet (mapDelete m k) k' = if k' = k then none else mapGet m k' := by
  induction m with
  | nil => by_cases h : k' = k <;> simp [mapGet, mapDelete, h]
  | cons p rest ih =>
      obtain ⟨a, v⟩ := p
      by_cases hak : a = k
      · subst hak
        have hdrop : mapDelete ((a, v) :: rest) a = mapDelete rest a := by
          simp [mapDelete]
        rw [hdrop, ih]
        by_cases hk : k' = a
        · simp [hk]
        · have hne : ¬ a = k' := fun h => hk h.symm
          simp [hk, mapGet_cons, hne]
      · have hkeep : mapDelete ((a, v) :: rest) k = (a, v) :: mapDelete rest k := by
          simp [mapDelete, hak]
        rw [hkeep, mapGet_cons, ih, mapGet_cons]
        by_cases hak' : a = k'
        · subst hak'
          simp [hak]
        · simp [hak']

theorem mapGet_eq_none_of_not_has {α : Type} {m : List (String × α)}
    {k : String} (h : ¬ m.any (fun p => decide (p.1 = k)) = true) :
    mapGet m k = none := by
  induction m with
  | nil => rfl
  | cons p rest ih =>
      obtain ⟨a, v⟩ := p
      simp only [List.any_cons, Bool.or_eq_true, decide_eq_true_eq] at h
      push_neg at h
      rw [mapGet_cons, if_neg h.1]
      exact ih (by simpa using h.2)

theorem mapGet_replaceEntry {α : Type} (m : List (String × α)) (k k' : String)
    (v : α) :
    mapGet (m.map (fun p => if p.1 = k then (k, v) else p)) k' =
      if k' = k ∧ m.any (fun p => decide (p.1 = k)) = true then some v
      else mapGet m k' := by
  induction m with
  | nil => simp [mapGet]
  | cons p rest ih =>
      obtain ⟨a, w⟩ := p
      by_cases hak : a = k
      · subst hak
        simp only [List.map_cons, if_pos rfl, mapGet_cons, List.any_cons,
          Bool.or_eq_true, decide_eq_true_eq]
        by_cases hk : k' = a
        · simp [hk, mapGet_cons]
        · have hne : ¬ a = k' := fun h => hk h.symm
          simp [hk, hne, mapGet_cons, ih]
      · simp only [List.map_cons, if_neg hak, mapGet_cons, List.any_cons,
          Bool.or_eq_true, decide_eq_true_eq]
        by_cases hak' : a = k'
        · have hkk : ¬ k' = k := by
            intro h
            exact hak (hak'.trans h)
          simp [hak', hkk]
        · simp only [if_neg hak', ih]
          by_cases hk : k' = k
          · simp only [hak, false_or, hk]
          · simp [hk]

theorem mapGet_append_one {α : Type} (m : List (String × α)) (k k' : String)
    (v : α) :
    mapGet (m ++ [(k, v)]) k' =
      match mapGet m k' with
      | some w => some w
      | none => if k = k' then some v else none := by
  induction m with
  | nil => by_cases h : k = k' <;> simp [mapGet, mapGet_cons, h]
  | cons p rest ih =>
      obtain ⟨a, w⟩ := p
      rw [List.cons_append, mapGet_cons, mapGet_cons]
      by_cases hak : a = k'
      · simp [hak]
      · simp [hak, ih]

theorem mapGet_mapSet {α : Type} (m : List (String × α)) (k k' : String)
    (v : α) :
    mapGet (mapSet m k v) k' = if k' = k then some v else mapGet m k' := by
  unfold mapSet
  by_cases hmem : m.any (fun p => decide (p.1 = k)) = true
  · rw [if_pos hmem, mapGet_replaceEntry]
    by_cases hk : k' = k <;> simp [hk, hmem]
  · rw [if_neg hmem, mapGet_append_one]
    by_cases hk : k' = k
    · subst hk
      simp [mapGet_eq_none_of_not_has hmem]
    · have hne : ¬ k = k' := fun h => hk h.symm
      cases hval : mapGet m k' <;> simp [hval, hne, hk]

theorem mapGet_of_mapDelete_some {α : Type} {m : List (String × α)}
    {k k' : String} {v : α} (h : mapGet (mapDelete m k) k' = some v) :
    mapGet m k' = some v ∧ k' ≠ k := by
  rw [mapGet_mapDelete] at h
  by_cases hk : k' = k
  · simp [hk] at h
  · simp [hk] at h
    exact ⟨h, hk⟩

theorem setDelete_idem (s : List String) (x : String) :
    setDelete (setDelete s x) x = setDelete s x := by
  simp [setDelete, List.filter_filter]

theorem not_mem_setDelete (s : List String) (x : String) :
    x ∉ setDelete s x := by
  simp [setDelete]

end Coord

theorem Coord.mapGet_mem {α : Type} {m : List (String × α)} {k : String}
    {v : α} (h : Coord.mapGet m k = some v) : (k, v) ∈ m := by
  unfold Coord.mapGet at h
  cases hf : m.find? (fun p => decide (p.1 = k)) with
  | none => rw [hf] at h; simp at h
  | some p =>
      rw [hf] at h
      simp only [Option.map_some'] at h
      have hpred := List.find?_some hf
      have hmem := List.mem_of_find?_eq_some hf
      simp only [decide_eq_true_eq] at hpred
      have hp : p = (k, v) := by
        obtain ⟨p1, p2⟩ := p
        simp only [Option.some.injEq] at h
        simp_all
      rw [hp] at hmem
      exact hmem

theorem AgentRegistry.mem_findByCapability {r : AgentRegistry.RegistryState}
    {name : String} {rec : AgentRegistry.AgentRecord}
    (h : rec ∈ AgentRegistry.findByCapability r name) :
    ∃ k, Coord.mapGet r.agents k = some rec := by
  unfold AgentRegistry.findByCapability at h
  cases hidx : Coord.mapGet r.capabilityIndex name with
  | none => rw [hidx] at h; simp at h
  | some ids =>
      rw [hidx] at h
      rw [List.mem_filterMap] at h
      obtain ⟨k, _, hk⟩ := h
      exact ⟨k, hk⟩

/-- Claim C1, counterexample: a message published with the present
target `""` invokes the handler of subscriber w1 even though
`"w1" ≠ ""` — `!message.target` is true for the falsy empty string, so
the code broadcasts such a message to every subscriber instead of
delivering it only to the worker whose id equals the target. -/
theorem claim_c1_counterexample :
    ({ agentId := "w1", messageType := "topic:t", handlerId := 0 } :
        MessageBus.Listener) ∈
      (MessageBus.publish
        (MessageBus.subscribe MessageBus.BusState.empty "w1" "topic:t" 0)
        "src" "topic:t" (some "") none).2.2
    ∧ ("w1" : String) ≠ "" := by
  decide

/-- Claim C1 (amended): on `publish`, a handler registered via
`subscribe` for the published topic is invoked exactly when the message
has no target, has the empty-string target (falsy in JS, hence treated
as broadcast), or its target equals that handler's worker id; in
particular a publish with a non-empty target invokes exactly the
handlers subscribed under that id, and a publish with no target (or the
empty-string target) invokes every handler on the topic. -/
theorem claim_c1_amended_targeted_delivery
    (s : MessageBus.BusState) (source topic : String) (target : Option String)
    (cid : Option Nat) (l : MessageBus.Listener) :
    (l ∈ (MessageBus.publish s source topic target cid).2.2 ↔
      l ∈ s.listeners ∧ l.messageType = topic ∧
        (target = none ∨ target = some "" ∨ target = some l.agentId))
    ∧ (∀ tg : String, tg ≠ "" →
        (l ∈ (MessageBus.publish s source topic (some tg) cid).2.2 ↔
          l ∈ s.listeners ∧ l.messageType = topic ∧ l.agentId = tg)) := by
  constructor
  · simp [MessageBus.publish, MessageBus.invokedListeners,
      MessageBus.deliversTo, List.mem_filter]
  · intro tg htg
    simp only [MessageBus.publish, MessageBus.invokedListeners,
      MessageBus.deliversTo, List.mem_filter, decide_eq_true_eq]
    constructor
    · intro hmem
      obtain ⟨hl, hmt, hcase⟩ := hmem
      rcases hcase with hc | hc | hc
      · exact Option.noConfusion hc
      · exact absurd (Option.some.inj hc) htg
      · exact ⟨hl, hmt, (Option.some.inj hc).symm⟩
    · intro hmem
      exact ⟨hmem.1, hmem.2.1, Or.inr (Or.inr (by rw [hmem.2.2]))⟩

theorem claim_c1_witness :
    (({ agentId := "w1", messageType := "topic:t", handlerId := 0 } :
        MessageBus.Listener) ∈
      (MessageBus.publish
        (MessageBus.subscribe MessageBus.BusState.empty "w1" "topic:t" 0)
        "src" "topic:t" (some "w1") none).2.2 ↔
      ({ agentId := "w1", messageType := "topic:t", handlerId := 0 } :
          MessageBus.Listener) ∈
        (MessageBus.subscribe MessageBus.BusState.empty "w1"
          "topic:t" 0).listeners
      ∧ ("topic:t" : String) = "topic:t"
      ∧ ("w1" : String) = "w1") :=
  (claim_c1_amended_targeted_delivery
    (MessageBus.subscribe MessageBus.BusState.empty "w1" "topic:t" 0)
    "src" "topic:t" (some "w1") none
    { agentId := "w1", messageType := "topic:t", handlerId := 0 }).2
    "w1" (by decide)

/-- Claim C2, evaluated at the failing input: after
`subscribe("w1", topic)` followed by `unsubscribe("w1", topic)`, a publish
on that topic still invokes w1's handler, because `unsubscribe` only
rewrites the `subscriptions` map and never removes the EventEmitter
listener that `subscribe` registered; the `subscriptions` map itself does
drop the entry. -/
theorem claim_c2_unsubscribed_handler_still_invoked :
    ({ agentId := "w1", messageType := "task:completed", handlerId := 0 } :
        MessageBus.Listener) ∈
      (MessageBus.publish
        (MessageBus.unsubscribe
          (MessageBus.subscribe MessageBus.BusState.empty "w1"
            "task:completed" 0)
          "w1" "task:completed")
        "src" "task:completed" none none).2.2
    ∧ Coord.mapGet
        (MessageBus.unsubscribe
          (MessageBus.subscribe MessageBus.BusState.empty "w1"
            "task:completed" 0)
          "w1" "task:completed").subscriptions "task:completed" = some [] := by
  decide

/-- Claim C9: in a registry whose records are keyed by their own id (as
`register` guarantees), after `unregister(id)` the `findByCapability`
result for any capability name contains no record with that id. -/
theorem claim_c9_unregister_findByCapability
    (r : AgentRegistry.RegistryState) (id capabilityName : String)
    (hkeys : ∀ p ∈ r.agents, (p.2 : AgentRegistry.AgentRecord).id = p.1) :
    ∀ rec ∈ AgentRegistry.findByCapability
        (AgentRegistry.unregister r id).2 capabilityName,
      rec.id ≠ id := by
  intro rec hrec hcontra
  cases hget : Coord.mapGet r.agents id with
  | none =>
      have h2 : (AgentRegistry.unregister r id).2 = r := by
        unfold AgentRegistry.unregister
        rw [hget]
      rw [h2] at hrec
      obtain ⟨k, hk⟩ := AgentRegistry.mem_findByCapability hrec
      have hkid : rec.id = k := hkeys (k, rec) (Coord.mapGet_mem hk)
      rw [hkid] at hcontra
      rw [hcontra] at hk
      rw [hget] at hk
      exact Option.noConfusion hk
  | some record =>
      have h2 : (AgentRegistry.unregister r id).2.agents =
          Coord.mapDelete r.agents id := by
        unfold AgentRegistry.unregister
        rw [hget]
      obtain ⟨k, hk⟩ := AgentRegistry.mem_findByCapability hrec
      rw [h2] at hk
      obtain ⟨hk', hne⟩ := Coord.mapGet_of_mapDelete_some hk
      have hkid : rec.id = k := hkeys (k, rec) (Coord.mapGet_mem hk')
      exact hne (by rw [← hkid, hcontra])

theorem claim_c9_witness :
    (∀ p ∈ AgentRegistry.regDemo.agents,
        (p.2 : AgentRegistry.AgentRecord).id = p.1)
    ∧ ∀ rec ∈ AgentRegistry.findByCapability
          (AgentRegistry.unregister AgentRegistry.regDemo "a1").2 "c",
        rec.id ≠ "a1" :=
  ⟨by decide,
   claim_c9_unregister_findByCapability AgentRegistry.regDemo "a1" "c"
     (by decide)⟩

theorem AgentRegistry.unregister_index_get (id : String)
    (caps : List AgentRegistry.Capability)
    (idx : List (String × List String)) (n : String) :
    Coord.mapGet
      (caps.foldl
        (fun idx cap =>
          match Coord.mapGet idx cap.name with
          | none => idx
          | some agentSet =>
              Coord.mapSet idx cap.name (Coord.setDelete agentSet id))
        idx) n =
      if n ∈ caps.map (fun c => c.name) then
        (Coord.mapGet idx n).map (fun s => Coord.setDelete s id)
      else Coord.mapGet idx n := by
  induction caps generalizing idx with
  | nil => simp
  | cons c rest ih =>
      rw [List.foldl_cons, ih]
      cases hc : Coord.mapGet idx c.name with
      | none =>
          by_cases hn : n ∈ rest.map (fun c => c.name)
          · simp [hn]
          · by_cases hcn : n = c.name
            · subst hcn
              simp [hn, hc]
            · simp [hn, hcn]
      | some s =>
          by_cases hcn : n = c.name
          · subst hcn
            by_cases hn : c.name ∈ rest.map (fun c => c.name)
            · simp [hn, hc, Coord.mapGet_mapSet, Coord.setDelete_idem]
            · simp [hn, hc, Coord.mapGet_mapSet, Coord.setDelete_idem]
          · simp [Coord.mapGet_mapSet, hcn]

/-- Claim C10: `unregister` on an unknown id returns `false` and leaves
both registry maps untouched; on a registered id it returns `true`,
deletes the record from the agents map, and removes the id from the
capability-index entry of exactly the capabilities in the stored
record. -/
theorem claim_c10_unregister_semantics (r : AgentRegistry.RegistryState)
    (id : String) :
    (Coord.mapGet r.agents id = none →
      AgentRegistry.unregister r id = (false, r))
    ∧ ∀ record, Coord.mapGet r.agents id = some record →
        (AgentRegistry.unregister r id).1 = true
        ∧ (AgentRegistry.unregister r id).2.agents =
            Coord.mapDelete r.agents id
        ∧ ∀ n, Coord.mapGet
              (AgentRegistry.unregister r id).2.capabilityIndex n =
            if n ∈ record.capabilities.map (fun c => c.name) then
              (Coord.mapGet r.capabilityIndex n).map
                (fun s => Coord.setDelete s id)
            else Coord.mapGet r.capabilityIndex n := by
  constructor
  · intro h
    unfold AgentRegistry.unregister
    rw [h]
  · intro record h
    unfold AgentRegistry.unregister
    rw [h]
    exact ⟨rfl, rfl,
      fun n => AgentRegistry.unregister_index_get id record.capabilities
        r.capabilityIndex n⟩

theorem claim_c10_witness :
    (Coord.mapGet AgentRegistry.regDemo.agents "ghost" = none
      ∧ AgentRegistry.unregister AgentRegistry.regDemo "ghost" =
          (false, AgentRegistry.regDemo))
    ∧ (Coord.mapGet AgentRegistry.regDemo.agents "a1" =
          some AgentRegistry.recDemo
      ∧ (AgentRegistry.unregister AgentRegistry.regDemo "a1").1 = true
      ∧ (AgentRegistry.unregister AgentRegistry.regDemo "a1").2.agents =
          Coord.mapDelete AgentRegistry.regDemo.agents "a1"
      ∧ Coord.mapGet
          (AgentRegistry.unregister AgentRegistry.regDemo "a1").2.capabilityIndex
          "c" =
        if "c" ∈ AgentRegistry.recDemo.capabilities.map (fun c => c.name) then
          (Coord.mapGet AgentRegistry.regDemo.capabilityIndex "c").map
            (fun s => Coord.setDelete s "a1")
        else Coord.mapGet AgentRegistry.regDemo.capabilityIndex "c") := by
  have hpos := (claim_c10_unregister_semantics AgentRegistry.regDemo "a1").2
    AgentRegistry.recDemo (by decide)
  exact ⟨⟨by decide,
      (claim_c10_unregister_semantics AgentRegistry.regDemo "ghost").1
        (by decide)⟩,
    by decide, hpos.1, hpos.2.1, hpos.2.2 "c"⟩

theorem OrchestratorAgent.checkPipelineCompletion_not_running
    {s : OrchestratorAgent.PipelineState}
    (h : ¬ s.status = OrchestratorAgent.PipeStatus.running) :
    OrchestratorAgent.checkPipelineCompletion s = s := by
  unfold OrchestratorAgent.checkPipelineCompletion
  rw [if_neg (fun hc => h hc.2)]

theorem OrchestratorAgent.onMessage_terminal
    (s : OrchestratorAgent.PipelineState) (e : OrchestratorAgent.OEvent)
    (h : ¬ s.status = OrchestratorAgent.PipeStatus.running) :
    (OrchestratorAgent.onMessage s e).status = s.status
    ∧ (OrchestratorAgent.onMessage s e).outcome = s.outcome := by
  cases e with
  | pageAssembled pt pg =>
      show (OrchestratorAgent.handlePageAssembled s pt pg).status = s.status
        ∧ (OrchestratorAgent.handlePageAssembled s pt pg).outcome = s.outcome
      unfold OrchestratorAgent.handlePageAssembled
      have hmid : ¬ ({ s with
          pages := OrchestratorAgent.storePage s.pages pt pg,
          receivedPages := Coord.setAdd s.receivedPages pt } :
            OrchestratorAgent.PipelineState).status =
          OrchestratorAgent.PipeStatus.running := h
      rw [OrchestratorAgent.checkPipelineCompletion_not_running hmid]
      exact ⟨rfl, rfl⟩
  | agentError err =>
      show (OrchestratorAgent.handleAgentError s err).status = s.status
        ∧ (OrchestratorAgent.handleAgentError s err).outcome = s.outcome
      unfold OrchestratorAgent.handleAgentError
      rw [if_neg h]
      exact ⟨rfl, rfl⟩

theorem OrchestratorAgent.runEvents_terminal
    (s : OrchestratorAgent.PipelineState) (es : List OrchestratorAgent.OEvent)
    (h : ¬ s.status = OrchestratorAgent.PipeStatus.running) :
    (OrchestratorAgent.runEvents s es).status = s.status
    ∧ (OrchestratorAgent.runEvents s es).outcome = s.outcome := by
  induction es generalizing s with
  | nil => exact ⟨rfl, rfl⟩
  | cons e rest ih =>
      have hstep := OrchestratorAgent.onMessage_terminal s e h
      have hne : ¬ (OrchestratorAgent.onMessage s e).status =
          OrchestratorAgent.PipeStatus.running := by
        rw [hstep.1]
        exact h
      have hrest := ih (OrchestratorAgent.onMessage s e) hne
      unfold OrchestratorAgent.runEvents at hrest ⊢
      rw [List.foldl_cons]
      exact ⟨hrest.1.trans hstep.1, hrest.2.trans hstep.2⟩

/-- Claim C7: while a run is `running` with its promise pending, a
page-assembled event completes the run and resolves the promise with
the collected pages and the received-output list exactly when the
received set now covers the expected set; otherwise the run stays
`running` with the promise still pending.  Concretely, with expected
outputs a and b, observing only a leaves the run running, and then
observing b completes and resolves it. -/
theorem claim_c7_pipeline_completion :
    (∀ (s : OrchestratorAgent.PipelineState) (pageType page : String),
      s.status = OrchestratorAgent.PipeStatus.running →
      s.outcome = none →
      (((OrchestratorAgent.handlePageAssembled s pageType page).status =
            OrchestratorAgent.PipeStatus.completed
          ∧ (OrchestratorAgent.handlePageAssembled s pageType page).outcome =
              some (OrchestratorAgent.Outcome.resolved
                (OrchestratorAgent.storePage s.pages pageType page)
                (Coord.setAdd s.receivedPages pageType)))
        ↔ s.expectedPages.all
            (fun p => (Coord.setAdd s.receivedPages pageType).contains p) = true)
      ∧ (s.expectedPages.all
            (fun p => (Coord.setAdd s.receivedPages pageType).contains p) = false →
          (OrchestratorAgent.handlePageAssembled s pageType page).status =
            OrchestratorAgent.PipeStatus.running
          ∧ (OrchestratorAgent.handlePageAssembled s pageType page).outcome = none))
    ∧ ((OrchestratorAgent.handlePageAssembled
          (OrchestratorAgent.runPipeline ["a", "b"]) "a" "pa").status =
        OrchestratorAgent.PipeStatus.running
      ∧ (OrchestratorAgent.handlePageAssembled
          (OrchestratorAgent.runPipeline ["a", "b"]) "a" "pa").outcome = none
      ∧ (OrchestratorAgent.handlePageAssembled
          (OrchestratorAgent.handlePageAssembled
            (OrchestratorAgent.runPipeline ["a", "b"]) "a" "pa")
          "b" "pb").status = OrchestratorAgent.PipeStatus.completed
      ∧ (OrchestratorAgent.handlePageAssembled
          (OrchestratorAgent.handlePageAssembled
            (OrchestratorAgent.runPipeline ["a", "b"]) "a" "pa")
          "b" "pb").outcome =
        some (OrchestratorAgent.Outcome.resolved
          { faq := none, product := none, comparison := none }
          ["a", "b"])) := by
  constructor
  · intro s pageType page hrun hout
    unfold OrchestratorAgent.handlePageAssembled
      OrchestratorAgent.checkPipelineCompletion
    by_cases hall : s.expectedPages.all
        (fun p => (Coord.setAdd s.receivedPages pageType).contains p) = true
    · rw [if_pos (And.intro hall hrun)]
      constructor
      · constructor
        · intro _
          exact hall
        · intro _
          refine ⟨rfl, ?_⟩
          show OrchestratorAgent.settle s.outcome _ = _
          rw [hout]
          rfl
      · intro hfalse
        rw [hall] at hfalse
        exact Bool.noConfusion hfalse
    · rw [if_neg (fun hc => hall hc.1)]
      constructor
      · constructor
        · intro hcontra
          have hs : OrchestratorAgent.PipeStatus.running =
              OrchestratorAgent.PipeStatus.completed :=
            hrun.symm.trans hcontra.1
          exact OrchestratorAgent.PipeStatus.noConfusion hs
        · intro hallc
          exact absurd hallc hall
      · intro _
        exact ⟨hrun, hout⟩
  · refine ⟨?_, ?_, ?_, ?_⟩ <;> decide

theorem claim_c7_witness :
    ((OrchestratorAgent.runPipeline ["a", "b"]).status =
        OrchestratorAgent.PipeStatus.running
      ∧ (OrchestratorAgent.runPipeline ["a", "b"]).outcome = none)
    ∧ ((OrchestratorAgent.handlePageAssembled
          (OrchestratorAgent.runPipeline ["a", "b"]) "b" "pb").status =
            OrchestratorAgent.PipeStatus.completed
        ∧ (OrchestratorAgent.handlePageAssembled
            (OrchestratorAgent.runPipeline ["a", "b"]) "b" "pb").outcome =
          some (OrchestratorAgent.Outcome.resolved
            (OrchestratorAgent.storePage
              (OrchestratorAgent.runPipeline ["a", "b"]).pages "b" "pb")
            (Coord.setAdd
              (OrchestratorAgent.runPipeline ["a", "b"]).receivedPages "b"))
      ↔ (OrchestratorAgent.runPipeline ["a", "b"]).expectedPages.all
          (fun p => (Coord.setAdd
            (OrchestratorAgent.runPipeline ["a", "b"]).receivedPages
            "b").contains p) = true) :=
  ⟨⟨by decide, by decide⟩,
   ((claim_c7_pipeline_completion.1 (OrchestratorAgent.runPipeline ["a", "b"])
      "b" "pb" (by decide) (by decide)).1)⟩

/-- Claim C8: a worker-error event observed while a run is `running`
(with its promise pending) immediately marks the run `failed` and
rejects the promise; once a run is in a terminal status (`failed` or
`completed`), any further sequence of page-assembled or worker-error
events leaves the status and the settled outcome untouched, so a run
settles at most once and a failed run never completes even when the
remaining expected outputs arrive later.  Concretely: with expected
outputs a and b, an error after only a has been observed fails the run,
and a subsequent b leaves it failed with the original rejection. -/
theorem claim_c8_worker_error_short_circuit :
    (∀ (s : OrchestratorAgent.PipelineState) (err : String),
      s.status = OrchestratorAgent.PipeStatus.running →
      s.outcome = none →
      (OrchestratorAgent.handleAgentError s err).status =
          OrchestratorAgent.PipeStatus.failed
      ∧ (OrchestratorAgent.handleAgentError s err).outcome =
          some (OrchestratorAgent.Outcome.rejected
            ("Pipeline failed: " ++ err)))
    ∧ (∀ (s : OrchestratorAgent.PipelineState)
        (es : List OrchestratorAgent.OEvent),
      ¬ s.status = OrchestratorAgent.PipeStatus.running →
      (OrchestratorAgent.runEvents s es).status = s.status
      ∧ (OrchestratorAgent.runEvents s es).outcome = s.outcome)
    ∧ ((OrchestratorAgent.runEvents (OrchestratorAgent.runPipeline ["a", "b"])
          [OrchestratorAgent.OEvent.pageAssembled "a" "pa",
           OrchestratorAgent.OEvent.agentError "boom",
           OrchestratorAgent.OEvent.pageAssembled "b" "pb"]).status =
        OrchestratorAgent.PipeStatus.failed
      ∧ (OrchestratorAgent.runEvents (OrchestratorAgent.runPipeline ["a", "b"])
          [OrchestratorAgent.OEvent.pageAssembled "a" "pa",
           OrchestratorAgent.OEvent.agentError "boom",
           OrchestratorAgent.OEvent.pageAssembled "b" "pb"]).outcome =
        some (OrchestratorAgent.Outcome.rejected "Pipeline failed: boom")) := by
  refine ⟨?_, ?_, ?_⟩
  · intro s err hrun hout
    unfold OrchestratorAgent.handleAgentError
    rw [if_pos hrun]
    refine ⟨rfl, ?_⟩
    show OrchestratorAgent.settle s.outcome _ = _
    rw [hout]
    rfl
  · intro s es h
    exact OrchestratorAgent.runEvents_terminal s es h
  · constructor <;> decide

theorem claim_c8_witness :
    ((OrchestratorAgent.handleAgentError
        (OrchestratorAgent.runPipeline ["a", "b"]) "boom").status =
          OrchestratorAgent.PipeStatus.failed
      ∧ (OrchestratorAgent.handleAgentError
          (OrchestratorAgent.runPipeline ["a", "b"]) "boom").outcome =
        some (OrchestratorAgent.Outcome.rejected "Pipeline failed: boom"))
    ∧ ((OrchestratorAgent.runEvents
          (OrchestratorAgent.handleAgentError
            (OrchestratorAgent.runPipeline ["a", "b"]) "boom")
          [OrchestratorAgent.OEvent.pageAssembled "b" "pb"]).status =
        (OrchestratorAgent.handleAgentError
          (OrchestratorAgent.runPipeline ["a", "b"]) "boom").status
      ∧ (OrchestratorAgent.runEvents
          (OrchestratorAgent.handleAgentError
            (OrchestratorAgent.runPipeline ["a", "b"]) "boom")
          [OrchestratorAgent.OEvent.pageAssembled "b" "pb"]).outcome =
        (OrchestratorAgent.handleAgentError
          (OrchestratorAgent.runPipeline ["a", "b"]) "boom").outcome) :=
  ⟨claim_c8_worker_error_short_circuit.1
      (OrchestratorAgent.runPipeline ["a", "b"]) "boom" (by decide) (by decide),
   claim_c8_worker_error_short_circuit.2.1
      (OrchestratorAgent.handleAgentError
        (OrchestratorAgent.runPipeline ["a", "b"]) "boom")
      [OrchestratorAgent.OEvent.pageAssembled "b" "pb"] (by decide)⟩

/-- Claim C4, evaluated at the failing input: after one failure report
on a task with retries remaining, the task is re-enqueued `PENDING`
with `assignedTo` cleared, but the worker it was assigned to is still
`BUSY` — `handleTaskCompletion` clears `task.assignedTo` before the
`if (task.assignedTo)` guard that frees the worker, so the retry
branch never sets the worker back to `READY`.  The exhaustion branch
(`maxRetries = 1`) does free the worker. -/
theorem claim_c4_worker_not_freed_on_retry :
    (Coord.mapGet TaskQueue.c4RetryRun.registry.agents "w").map
        (fun a => a.status) = some AgentRegistry.AgentStatus.BUSY
    ∧ (Coord.mapGet TaskQueue.c4RetryRun.tasks "task_1").map
        (fun t => (t.status, t.retryCount, t.assignedTo)) =
      some (TaskQueue.TaskStatus.PENDING, 1, none)
    ∧ (Coord.mapGet TaskQueue.c4FailRun.registry.agents "w").map
        (fun a => a.status) = some AgentRegistry.AgentStatus.READY
    ∧ (Coord.mapGet TaskQueue.c4FailRun.tasks "task_1").map
        (fun t => (t.status, t.retryCount)) =
      some (TaskQueue.TaskStatus.FAILED, 1) := by
  decide

/-- Claim C3, counterexample: on a task submitted with `maxRetries = 2`,
three failure reports leave `retryCount = 3`, not `2` — every report
increments the counter unconditionally, and after the second report the
task is already `FAILED`. -/
theorem claim_c3_counterexample :
    (Coord.mapGet TaskQueue.c3Run.tasks "task_1").map
        (fun t => (t.status, t.retryCount)) =
      some (TaskQueue.TaskStatus.FAILED, 3) := by
  decide

theorem TaskQueue.taskEvol_refl (t : TaskQueue.Task) : TaskQueue.taskEvol t t :=
  ⟨rfl, rfl, fun _ => rfl⟩

theorem TaskQueue.taskEvol_trans {t u v : TaskQueue.Task}
    (h1 : TaskQueue.taskEvol t u) (h2 : TaskQueue.taskEvol u v) :
    TaskQueue.taskEvol t v := by
  refine ⟨h2.1.trans h1.1, h2.2.1.trans h1.2.1, fun hnp => ?_⟩
  have hu : u = t := h1.2.2 hnp
  have hnu : ¬ u.status = TaskQueue.TaskStatus.PENDING := by
    rw [hu]
    exact hnp
  rw [h2.2.2 hnu, hu]

theorem TaskQueue.assignStep_taskEvol (acc : TaskQueue.SysState × List String)
    (qid tid : String) (t : TaskQueue.Task)
    (h : Coord.mapGet acc.1.tasks tid = some t) :
    ∃ u, Coord.mapGet (TaskQueue.assignStep acc qid).1.tasks tid = some u
      ∧ TaskQueue.taskEvol t u := by
  unfold TaskQueue.assignStep
  cases hq : Coord.mapGet acc.1.tasks qid with
  | none => exact ⟨t, h, TaskQueue.taskEvol_refl t⟩
  | some task =>
      simp only []
      by_cases hp : task.status ≠ TaskQueue.TaskStatus.PENDING
      · rw [if_pos hp]
        exact ⟨t, h, TaskQueue.taskEvol_refl t⟩
      · rw [if_neg hp]
        by_cases hd : ¬ TaskQueue.areDependenciesMet acc.1.tasks task = true
        · rw [if_pos hd]
          exact ⟨t, h, TaskQueue.taskEvol_refl t⟩
        · rw [if_neg hd]
          cases hf : AgentRegistry.findReadyByCapability acc.1.registry
              task.requiredCapability with
          | nil => exact ⟨t, h, TaskQueue.taskEvol_refl t⟩
          | cons agent rest =>
              simp only [Coord.mapGet_mapSet]
              by_cases htq : tid = qid
              · subst htq
                have htt : task = t := Option.some.inj (hq.symm.trans h)
                subst htt
                rw [if_pos rfl]
                refine ⟨_, rfl, rfl, rfl, fun hnp => ?_⟩
                exact absurd (not_not.mp hp) hnp
              · rw [if_neg htq]
                exact ⟨t, h, TaskQueue.taskEvol_refl t⟩

theorem TaskQueue.foldl_assignStep_taskEvol (ids : List String)
    (acc : TaskQueue.SysState × List String) (tid : String) (t : TaskQueue.Task)
    (h : Coord.mapGet acc.1.tasks tid = some t) :
    ∃ u, Coord.mapGet
        (ids.foldl TaskQueue.assignStep acc).1.tasks tid = some u
      ∧ TaskQueue.taskEvol t u := by
  induction ids generalizing acc t with
  | nil => exact ⟨t, h, TaskQueue.taskEvol_refl t⟩
  | cons qid rest ih =>
      obtain ⟨u, hu, he⟩ := TaskQueue.assignStep_taskEvol acc qid tid t h
      obtain ⟨v, hv, he2⟩ := ih (TaskQueue.assignStep acc qid) u hu
      exact ⟨v, by rw [List.foldl_cons]; exact hv,
        TaskQueue.taskEvol_trans he he2⟩

theorem TaskQueue.processQueue_taskEvol (s : TaskQueue.SysState)
    (tid : String) (t : TaskQueue.Task)
    (h : Coord.mapGet s.tasks tid = some t) :
    ∃ u, Coord.mapGet (TaskQueue.processQueue s).tasks tid = some u
      ∧ TaskQueue.taskEvol t u := by
  unfold TaskQueue.processQueue
  exact TaskQueue.foldl_assignStep_taskEvol s.pendingQueue (s, []) tid t h

theorem TaskQueue.enqueue_tasks (s : TaskQueue.SysState) (x : String) :
    (TaskQueue.enqueue s x).tasks = s.tasks := by
  unfold TaskQueue.enqueue
  cases Coord.mapGet s.tasks x <;> rfl

theorem TaskQueue.handleFailure_retry (s : TaskQueue.SysState)
    (tid : String) (t : TaskQueue.Task) (d e : Option String)
    (h : Coord.mapGet s.tasks tid = some t)
    (hlt : t.retryCount + 1 < t.maxRetries) :
    ∃ u, Coord.mapGet
        (TaskQueue.handleTaskCompletion s tid false d e).tasks tid = some u
      ∧ u.retryCount = t.retryCount + 1 ∧ u.maxRetries = t.maxRetries := by
  unfold TaskQueue.handleTaskCompletion
  rw [h]
  simp only [Bool.false_eq_true, if_false]
  rw [if_pos hlt]
  have hmid : Coord.mapGet
      (TaskQueue.enqueue
        { s with tasks := (Coord.mapSet s.tasks tid
            { t with retryCount := t.retryCount + 1,
                     status := TaskQueue.TaskStatus.PENDING,
                     assignedTo := none }) } tid).tasks tid =
      some { t with retryCount := t.retryCount + 1,
                    status := TaskQueue.TaskStatus.PENDING,
                    assignedTo := none } := by
    rw [TaskQueue.enqueue_tasks]
    show Coord.mapGet (Coord.mapSet s.tasks tid _) tid = _
    rw [Coord.mapGet_mapSet, if_pos rfl]
  obtain ⟨u, hu, he⟩ := TaskQueue.processQueue_taskEvol _ tid _ hmid
  exact ⟨u, hu, by rw [he.1], by rw [he.2.1]⟩

theorem TaskQueue.processQueue_keeps (s : TaskQueue.SysState)
    (tid : String) (t : TaskQueue.Task)
    (h : Coord.mapGet s.tasks tid = some t)
    (hnp : ¬ t.status = TaskQueue.TaskStatus.PENDING) :
    Coord.mapGet (TaskQueue.processQueue s).tasks tid = some t := by
  obtain ⟨u, hu, he⟩ := TaskQueue.processQueue_taskEvol s tid t h
  rw [hu, he.2.2 hnp]

theorem TaskQueue.handleFailure_exhausted (s : TaskQueue.SysState)
    (tid : String) (t : TaskQueue.Task) (d e : Option String)
    (h : Coord.mapGet s.tasks tid = some t)
    (hge : ¬ t.retryCount + 1 < t.maxRetries) :
    Coord.mapGet
        (TaskQueue.handleTaskCompletion s tid false d e).tasks tid =
      some { t with retryCount := t.retryCount + 1,
                    status := TaskQueue.TaskStatus.FAILED,
                    error := e } := by
  unfold TaskQueue.handleTaskCompletion
  rw [h]
  simp only [Bool.false_eq_true, if_false]
  rw [if_neg hge]
  cases hA : t.assignedTo with
  | none =>
      simp only [hA]
      refine TaskQueue.processQueue_keeps _ tid _ ?_ ?_
      · simp [Coord.mapGet_mapSet]
      · exact fun hc => TaskQueue.TaskStatus.noConfusion hc
  | some aid =>
      simp only [hA]
      refine TaskQueue.processQueue_keeps _ tid _ ?_ ?_
      · simp [Coord.mapGet_mapSet]
      · exact fun hc => TaskQueue.TaskStatus.noConfusion hc

/-- Claim C3 (amended): on a task with `maxRetries = 2` and
`retryCount = 0`, the second failure report already leaves the task
`FAILED` with `retryCount = 2`; a third failure report is processed
again by `handleTaskCompletion` and leaves `retryCount = 3` (status
still `FAILED`) — the handler increments the counter unconditionally,
so three reports give 3, not 2. -/
theorem claim_c3_retry_exhaustion_amended :
    ∀ (s : TaskQueue.SysState) (tid : String) (t : TaskQueue.Task)
      (d1 d2 d3 e1 e2 e3 : Option String),
      Coord.mapGet s.tasks tid = some t →
      t.retryCount = 0 → t.maxRetries = 2 →
      ((Coord.mapGet (TaskQueue.handleTaskCompletion
          (TaskQueue.handleTaskCompletion s tid false d1 e1)
          tid false d2 e2).tasks tid).map
            (fun u => (u.status, u.retryCount)) =
        some (TaskQueue.TaskStatus.FAILED, 2))
      ∧ ((Coord.mapGet (TaskQueue.handleTaskCompletion
          (TaskQueue.handleTaskCompletion
            (TaskQueue.handleTaskCompletion s tid false d1 e1)
            tid false d2 e2)
          tid false d3 e3).tasks tid).map
            (fun u => (u.status, u.retryCount)) =
        some (TaskQueue.TaskStatus.FAILED, 3)) := by
  intro s tid t d1 d2 d3 e1 e2 e3 h hrc hmr
  have hlt1 : t.retryCount + 1 < t.maxRetries := by
    rw [hrc, hmr]
    decide
  obtain ⟨t1, h1, hrc1, hmr1⟩ :=
    TaskQueue.handleFailure_retry s tid t d1 e1 h hlt1
  have hge2 : ¬ t1.retryCount + 1 < t1.maxRetries := by
    rw [hrc1, hmr1, hrc, hmr]
    decide
  have h2 := TaskQueue.handleFailure_exhausted _ tid t1 d2 e2 h1 hge2
  constructor
  · rw [h2]
    simp [hrc1, hrc]
  · have hge3 : ¬ t1.retryCount + 1 + 1 < t1.maxRetries := by
      rw [hrc1, hmr1, hrc, hmr]
      decide
    have h3 := TaskQueue.handleFailure_exhausted _ tid _ d3 e3 h2 hge3
    rw [h3]
    simp [hrc1, hrc]

theorem claim_c3_witness :
    (Coord.mapGet TaskQueue.c3SubmitState.tasks "task_1" =
        some TaskQueue.c3SubmitTask
      ∧ TaskQueue.c3SubmitTask.retryCount = 0
      ∧ TaskQueue.c3SubmitTask.maxRetries = 2)
    ∧ ((Coord.mapGet (TaskQueue.handleTaskCompletion
          (TaskQueue.handleTaskCompletion TaskQueue.c3SubmitState "task_1"
            false none (some "e1"))
          "task_1" false none (some "e2")).tasks "task_1").map
            (fun u => (u.status, u.retryCount)) =
        some (TaskQueue.TaskStatus.FAILED, 2))
    ∧ ((Coord.mapGet (TaskQueue.handleTaskCompletion
          (TaskQueue.handleTaskCompletion
            (TaskQueue.handleTaskCompletion TaskQueue.c3SubmitState "task_1"
              false none (some "e1"))
            "task_1" false none (some "e2"))
          "task_1" false none (some "e3")).tasks "task_1").map
            (fun u => (u.status, u.retryCount)) =
        some (TaskQueue.TaskStatus.FAILED, 3)) := by
  have happ := claim_c3_retry_exhaustion_amended TaskQueue.c3SubmitState
    "task_1" TaskQueue.c3SubmitTask none none none
    (some "e1") (some "e2") (some "e3")
    (by decide) (by decide) (by decide)
  exact ⟨⟨by decide, by decide, by decide⟩, happ.1, happ.2⟩

theorem TaskQueue.mem_insertByPriority
    (tasks : List (String × TaskQueue.Task)) (task : TaskQueue.Task)
    (tid : String) (l : List String) (x : String)
    (hx : x ∈ TaskQueue.insertByPriority tasks task tid l) :
    x = tid ∨ x ∈ l := by
  induction l with
  | nil =>
      simp only [TaskQueue.insertByPriority, List.mem_singleton] at hx
      exact Or.inl hx
  | cons qid rest ih =>
      simp only [TaskQueue.insertByPriority] at hx
      cases hget : Coord.mapGet tasks qid with
      | none =>
          rw [hget] at hx
          rcases List.mem_cons.mp hx with h1 | h1
          · exact Or.inr (List.mem_cons.mpr (Or.inl h1))
          · rcases ih h1 with h2 | h2
            · exact Or.inl h2
            · exact Or.inr (List.mem_cons.mpr (Or.inr h2))
      | some existing =>
          rw [hget] at hx
          simp only [] at hx
          by_cases hlt : existing.priority.val < task.priority.val
          · rw [if_pos hlt] at hx
            rcases List.mem_cons.mp hx with h1 | h1
            · exact Or.inl h1
            · exact Or.inr h1
          · rw [if_neg hlt] at hx
            rcases List.mem_cons.mp hx with h1 | h1
            · exact Or.inr (List.mem_cons.mpr (Or.inl h1))
            · rcases ih h1 with h2 | h2
              · exact Or.inl h2
              · exact Or.inr (List.mem_cons.mpr (Or.inr h2))

theorem TaskQueue.insertByPriority_split
    (tasks : List (String × TaskQueue.Task)) (task : TaskQueue.Task)
    (tid : String) (l : List String)
    (hres : ∀ qid ∈ l, (Coord.mapGet tasks qid).isSome = true) :
    ∃ pre post,
      l = pre ++ post
      ∧ TaskQueue.insertByPriority tasks task tid l = pre ++ tid :: post
      ∧ (∀ qid ∈ pre, ∀ u, Coord.mapGet tasks qid = some u →
          ¬ u.priority.val < task.priority.val)
      ∧ (∀ hd rest2, post = hd :: rest2 → ∃ u,
          Coord.mapGet tasks hd = some u
            ∧ u.priority.val < task.priority.val) := by
  induction l with
  | nil =>
      refine ⟨[], [], rfl, rfl, ?_, ?_⟩
      · intro qid hq
        exact absurd hq (List.not_mem_nil qid)
      · intro hd rest2 hpost
        exact List.noConfusion hpost
  | cons qid rest ih =>
      have hq : (Coord.mapGet tasks qid).isSome = true :=
        hres qid (List.mem_cons_self qid rest)
      cases hget : Coord.mapGet tasks qid with
      | none =>
          rw [hget] at hq
          exact Bool.noConfusion hq
      | some existing =>
          simp only [TaskQueue.insertByPriority]
          rw [hget]
          simp only []
          by_cases hlt : existing.priority.val < task.priority.val
          · rw [if_pos hlt]
            refine ⟨[], qid :: rest, rfl, rfl, ?_, ?_⟩
            · intro x hx
              exact absurd hx (List.not_mem_nil x)
            · intro hd rest2 hpost
              injection hpost with h1 h2
              subst h1
              exact ⟨existing, hget, hlt⟩
          · rw [if_neg hlt]
            obtain ⟨pre, post, hsplit, hins, hpre, hpost⟩ :=
              ih (fun x hx => hres x (List.mem_cons_of_mem qid hx))
            refine ⟨qid :: pre, post, ?_, ?_, ?_, hpost⟩
            · rw [List.cons_append, ← hsplit]
            · rw [List.cons_append, hins]
            · intro x hx u hu
              rcases List.mem_cons.mp hx with h1 | h1
              · subst h1
                rw [hget] at hu
                injection hu with h2
                rw [← h2]
                exact hlt
              · exact hpre x h1 u hu

theorem TaskQueue.insertByPriority_sorted
    (tasks : List (String × TaskQueue.Task)) (task : TaskQueue.Task)
    (tid : String) (l : List String)
    (hres : ∀ qid ∈ l, (Coord.mapGet tasks qid).isSome = true)
    (htid : Coord.mapGet tasks tid = some task)
    (hsort : List.Pairwise
      (fun a b => TaskQueue.prioOf tasks b ≤ TaskQueue.prioOf tasks a) l) :
    List.Pairwise
      (fun a b => TaskQueue.prioOf tasks b ≤ TaskQueue.prioOf tasks a)
      (TaskQueue.insertByPriority tasks task tid l) := by
  have htidp : TaskQueue.prioOf tasks tid = task.priority.val := by
    simp [TaskQueue.prioOf, htid]
  induction l with
  | nil =>
      simp [TaskQueue.insertByPriority]
  | cons qid rest ih =>
      have hq : (Coord.mapGet tasks qid).isSome = true :=
        hres qid (List.mem_cons_self qid rest)
      cases hget : Coord.mapGet tasks qid with
      | none =>
          rw [hget] at hq
          exact Bool.noConfusion hq
      | some existing =>
          have hqp : TaskQueue.prioOf tasks qid = existing.priority.val := by
            simp [TaskQueue.prioOf, hget]
          rw [List.pairwise_cons] at hsort
          obtain ⟨hq_ge, hrest⟩ := hsort
          simp only [TaskQueue.insertByPriority]
          rw [hget]
          simp only []
          by_cases hlt : existing.priority.val < task.priority.val
          · rw [if_pos hlt]
            rw [List.pairwise_cons]
            constructor
            · intro b hb
              rw [htidp]
              rcases List.mem_cons.mp hb with h1 | h1
              · subst h1
                rw [hqp]
                exact Nat.le_of_lt hlt
              · have h2 := hq_ge b h1
                rw [hqp] at h2
                exact Nat.le_trans h2 (Nat.le_of_lt hlt)
            · rw [List.pairwise_cons]
              exact ⟨hq_ge, hrest⟩
          · rw [if_neg hlt]
            rw [List.pairwise_cons]
            constructor
            · intro b hb
              rcases TaskQueue.mem_insertByPriority tasks task tid rest b hb
                  with h1 | h1
              · subst h1
                rw [htidp, hqp]
                exact Nat.le_of_not_lt hlt
              · exact hq_ge b h1
            · exact ih (fun x hx => hres x (List.mem_cons_of_mem qid hx)) hrest

/-- Claim C5: `enqueue` (called by `submit`) inserts the new task id
before the first backlog entry whose task has strictly lower priority:
the backlog splits into a prefix of entries with priority not below the
new task's (so FIFO order among equal priorities is kept) followed by
the strictly-lower suffix, and a high-to-low sorted backlog stays
sorted.  Concretely, submitting priorities LOW, HIGH, NORMAL yields the
backlog HIGH, NORMAL, LOW and the assignment order HIGH, NORMAL, LOW
with a capable ready worker available for all three. -/
theorem claim_c5_priority_ordering :
    (∀ (s : TaskQueue.SysState) (tid : String) (task : TaskQueue.Task),
      Coord.mapGet s.tasks tid = some task →
      (TaskQueue.enqueue s tid).pendingQueue =
        TaskQueue.insertByPriority s.tasks task tid s.pendingQueue)
    ∧ (∀ (tasks : List (String × TaskQueue.Task)) (task : TaskQueue.Task)
        (tid : String) (l : List String),
        (∀ qid ∈ l, (Coord.mapGet tasks qid).isSome = true) →
        ∃ pre post,
          l = pre ++ post
          ∧ TaskQueue.insertByPriority tasks task tid l = pre ++ tid :: post
          ∧ (∀ qid ∈ pre, ∀ u, Coord.mapGet tasks qid = some u →
              ¬ u.priority.val < task.priority.val)
          ∧ (∀ hd rest2, post = hd :: rest2 → ∃ u,
              Coord.mapGet tasks hd = some u
                ∧ u.priority.val < task.priority.val))
    ∧ (∀ (tasks : List (String × TaskQueue.Task)) (task : TaskQueue.Task)
        (tid : String) (l : List String),
        (∀ qid ∈ l, (Coord.mapGet tasks qid).isSome = true) →
        Coord.mapGet tasks tid = some task →
        List.Pairwise
          (fun a b => TaskQueue.prioOf tasks b ≤ TaskQueue.prioOf tasks a) l →
        List.Pairwise
          (fun a b => TaskQueue.prioOf tasks b ≤ TaskQueue.prioOf tasks a)
          (TaskQueue.insertByPriority tasks task tid l))
    ∧ (TaskQueue.c5Backlog.pendingQueue = ["task_2", "task_3", "task_1"]
      ∧ TaskQueue.assignmentLog TaskQueue.c5Run =
          [("task_2", "w"), ("task_3", "w"), ("task_1", "w")]
      ∧ (Coord.mapGet TaskQueue.c5Run.tasks "task_2").map
          (fun t => t.priority) = some TaskQueue.TaskPriority.HIGH
      ∧ (Coord.mapGet TaskQueue.c5Run.tasks "task_3").map
          (fun t => t.priority) = some TaskQueue.TaskPriority.NORMAL
      ∧ (Coord.mapGet TaskQueue.c5Run.tasks "task_1").map
          (fun t => t.priority) = some TaskQueue.TaskPriority.LOW) := by
  refine ⟨?_, TaskQueue.insertByPriority_split,
    TaskQueue.insertByPriority_sorted, by decide⟩
  intro s tid task h
  unfold TaskQueue.enqueue
  rw [h]

theorem claim_c5_witness :
    ((TaskQueue.enqueue TaskQueue.c5Backlog "task_1").pendingQueue =
      TaskQueue.insertByPriority TaskQueue.c5Backlog.tasks
        TaskQueue.c5LowTask "task_1" TaskQueue.c5Backlog.pendingQueue)
    ∧ List.Pairwise
        (fun a b => TaskQueue.prioOf TaskQueue.c5Backlog.tasks b ≤
          TaskQueue.prioOf TaskQueue.c5Backlog.tasks a)
        (TaskQueue.insertByPriority TaskQueue.c5Backlog.tasks
          TaskQueue.c5LowTask "task_1" TaskQueue.c5Backlog.pendingQueue) :=
  ⟨claim_c5_priority_ordering.1 TaskQueue.c5Backlog "task_1"
      TaskQueue.c5LowTask (by decide),
   claim_c5_priority_ordering.2.2.1 TaskQueue.c5Backlog.tasks
      TaskQueue.c5LowTask "task_1" TaskQueue.c5Backlog.pendingQueue
      (by decide) (by decide) (by decide)⟩

theorem TaskQueue.areDependenciesMet_eq_false
    (tasks : List (String × TaskQueue.Task)) (t : TaskQueue.Task) (d : String)
    (hmem : d ∈ t.dependencies) (hb : TaskQueue.depBroken tasks d) :
    TaskQueue.areDependenciesMet tasks t = false := by
  by_contra hc
  have htrue : TaskQueue.areDependenciesMet tasks t = true := by
    cases h2 : TaskQueue.areDependenciesMet tasks t
    · exact absurd h2 hc
    · rfl
  unfold TaskQueue.areDependenciesMet at htrue
  rw [List.all_eq_true] at htrue
  have hpred := htrue d hmem
  cases hd : Coord.mapGet tasks d with
  | none =>
      rw [hd] at hpred
      exact Bool.noConfusion hpred
  | some u =>
      rw [hd] at hpred
      simp only [] at hpred
      cases hu : u.status <;>
        first
          | exact absurd hu (hb u hd)
          | (rw [hu] at hpred; exact Bool.noConfusion hpred)

theorem TaskQueue.assignStep_blocked (acc : TaskQueue.SysState × List String)
    (qid tid : String) (t : TaskQueue.Task) (d : String)
    (hmem : d ∈ t.dependencies)
    (h : Coord.mapGet acc.1.tasks tid = some t)
    (hb : TaskQueue.depBroken acc.1.tasks d) :
    Coord.mapGet (TaskQueue.assignStep acc qid).1.tasks tid = some t
    ∧ TaskQueue.depBroken (TaskQueue.assignStep acc qid).1.tasks d := by
  unfold TaskQueue.assignStep
  cases hq : Coord.mapGet acc.1.tasks qid with
  | none => exact ⟨h, hb⟩
  | some task =>
      simp only []
      by_cases hp : task.status ≠ TaskQueue.TaskStatus.PENDING
      · rw [if_pos hp]
        exact ⟨h, hb⟩
      · rw [if_neg hp]
        by_cases hdm : ¬ TaskQueue.areDependenciesMet acc.1.tasks task = true
        · rw [if_pos hdm]
          exact ⟨h, hb⟩
        · rw [if_neg hdm]
          cases hf : AgentRegistry.findReadyByCapability acc.1.registry
              task.requiredCapability with
          | nil => exact ⟨h, hb⟩
          | cons agent rest =>
              constructor
              · simp only [Coord.mapGet_mapSet]
                by_cases htq : tid = qid
                · exfalso
                  subst htq
                  have htt : task = t := Option.some.inj (hq.symm.trans h)
                  subst htt
                  have hfalse := TaskQueue.areDependenciesMet_eq_false
                    acc.1.tasks task d hmem hb
                  have htrue := not_not.mp hdm
                  rw [hfalse] at htrue
                  exact Bool.noConfusion htrue
                · rw [if_neg htq]
                  exact h
              · intro u hu hc
                simp only [Coord.mapGet_mapSet] at hu
                by_cases hdq : d = qid
                · rw [if_pos hdq] at hu
                  have hu' := Option.some.inj hu
                  rw [← hu'] at hc
                  exact TaskQueue.TaskStatus.noConfusion hc
                · rw [if_neg hdq] at hu
                  exact hb u hu hc

theorem TaskQueue.processQueue_blocked (s : TaskQueue.SysState)
    (tid : String) (t : TaskQueue.Task) (d : String)
    (hmem : d ∈ t.dependencies)
    (h : Coord.mapGet s.tasks tid = some t)
    (hb : TaskQueue.depBroken s.tasks d) :
    Coord.mapGet (TaskQueue.processQueue s).tasks tid = some t := by
  suffices hfold : ∀ (ids : List String) (acc : TaskQueue.SysState × List String),
      Coord.mapGet acc.1.tasks tid = some t →
      TaskQueue.depBroken acc.1.tasks d →
      Coord.mapGet (ids.foldl TaskQueue.assignStep acc).1.tasks tid = some t by
    unfold TaskQueue.processQueue
    exact hfold s.pendingQueue (s, []) h hb
  intro ids
  induction ids with
  | nil =>
      intro acc h1 _
      exact h1
  | cons qid rest ih =>
      intro acc h1 hb1
      have hstep := TaskQueue.assignStep_blocked acc qid tid t d hmem h1 hb1
      rw [List.foldl_cons]
      exact ih (TaskQueue.assignStep acc qid) hstep.1 hstep.2

theorem TaskQueue.assignStep_skip (acc : TaskQueue.SysState × List String)
    (qid : String) (hskip : TaskQueue.skipCondition acc.1 qid) :
    TaskQueue.assignStep acc qid = acc := by
  unfold TaskQueue.assignStep
  rcases hskip with hnone | ⟨u, hu, hcond⟩
  · rw [hnone]
  · rw [hu]
    simp only []
    by_cases hp : u.status ≠ TaskQueue.TaskStatus.PENDING
    · rw [if_pos hp]
    · rw [if_neg hp]
      rcases hcond with hc | hc | hc
      · exact absurd hc hp
      · rw [if_pos (by rw [hc]; exact Bool.false_ne_true)]
      · by_cases hd2 : ¬ TaskQueue.areDependenciesMet acc.1.tasks u = true
        · rw [if_pos hd2]
        · rw [if_neg hd2]
          rw [hc]

theorem TaskQueue.foldl_skip (ids : List String)
    (acc : TaskQueue.SysState × List String)
    (hskip : ∀ qid ∈ ids, TaskQueue.skipCondition acc.1 qid) :
    ids.foldl TaskQueue.assignStep acc = acc := by
  induction ids with
  | nil => rfl
  | cons qid rest ih =>
      rw [List.foldl_cons,
        TaskQueue.assignStep_skip acc qid (hskip qid (List.mem_cons_self qid rest))]
      exact ih (fun x hx => hskip x (List.mem_cons_of_mem qid hx))

theorem AgentRegistry.updateStatus_keeps_busy (r : AgentRegistry.RegistryState)
    (x aid : String)
    (h : ∃ rec, Coord.mapGet r.agents aid = some rec
      ∧ rec.status = AgentRegistry.AgentStatus.BUSY) :
    ∃ rec, Coord.mapGet
        (AgentRegistry.updateStatus r x AgentRegistry.AgentStatus.BUSY).1.agents
        aid = some rec
      ∧ rec.status = AgentRegistry.AgentStatus.BUSY := by
  unfold AgentRegistry.updateStatus
  cases hg : Coord.mapGet r.agents x with
  | none => exact h
  | some record =>
      simp only []
      obtain ⟨rec, hrec, hst⟩ := h
      by_cases haid : aid = x
      · subst haid
        refine ⟨{ record with status := AgentRegistry.AgentStatus.BUSY }, ?_, rfl⟩
        show Coord.mapGet (Coord.mapSet r.agents aid
          { record with status := AgentRegistry.AgentStatus.BUSY }) aid = _
        rw [Coord.mapGet_mapSet, if_pos rfl]
      · refine ⟨rec, ?_, hst⟩
        show Coord.mapGet (Coord.mapSet r.agents x
          { record with status := AgentRegistry.AgentStatus.BUSY }) aid = some rec
        rw [Coord.mapGet_mapSet, if_neg haid]
        exact hrec

theorem TaskQueue.assignStep_keeps_busy (acc : TaskQueue.SysState × List String)
    (qid aid : String)
    (h : ∃ rec, Coord.mapGet acc.1.registry.agents aid = some rec
      ∧ rec.status = AgentRegistry.AgentStatus.BUSY) :
    ∃ rec, Coord.mapGet
        (TaskQueue.assignStep acc qid).1.registry.agents aid = some rec
      ∧ rec.status = AgentRegistry.AgentStatus.BUSY := by
  unfold TaskQueue.assignStep
  cases hq : Coord.mapGet acc.1.tasks qid with
  | none => exact h
  | some task =>
      simp only []
      by_cases hp : task.status ≠ TaskQueue.TaskStatus.PENDING
      · rw [if_pos hp]
        exact h
      · rw [if_neg hp]
        by_cases hdm : ¬ TaskQueue.areDependenciesMet acc.1.tasks task = true
        · rw [if_pos hdm]
          exact h
        · rw [if_neg hdm]
          cases hf : AgentRegistry.findReadyByCapability acc.1.registry
              task.requiredCapability with
          | nil => exact h
          | cons agent rest =>
              exact AgentRegistry.updateStatus_keeps_busy acc.1.registry
                agent.id aid h

theorem TaskQueue.foldl_keeps_busy (ids : List String)
    (acc : TaskQueue.SysState × List String) (aid : String)
    (h : ∃ rec, Coord.mapGet acc.1.registry.agents aid = some rec
      ∧ rec.status = AgentRegistry.AgentStatus.BUSY) :
    ∃ rec, Coord.mapGet
        (ids.foldl TaskQueue.assignStep acc).1.registry.agents aid = some rec
      ∧ rec.status = AgentRegistry.AgentStatus.BUSY := by
  induction ids generalizing acc with
  | nil => exact h
  | cons qid rest ih =>
      rw [List.foldl_cons]
      exact ih (TaskQueue.assignStep acc qid)
        (TaskQueue.assignStep_keeps_busy acc qid aid h)

theorem TaskQueue.processQueue_assigns_first (s : TaskQueue.SysState)
    (pre post : List String) (tid : String) (t : TaskQueue.Task)
    (agent : AgentRegistry.AgentRecord)
    (others : List AgentRegistry.AgentRecord)
    (hqueue : s.pendingQueue = pre ++ tid :: post)
    (hpre : ∀ qid ∈ pre, TaskQueue.skipCondition s qid)
    (ht : Coord.mapGet s.tasks tid = some t)
    (hp : t.status = TaskQueue.TaskStatus.PENDING)
    (hd : TaskQueue.areDependenciesMet s.tasks t = true)
    (hf : AgentRegistry.findReadyByCapability s.registry t.requiredCapability =
      agent :: others)
    (hself : Coord.mapGet s.registry.agents agent.id = some agent) :
    Coord.mapGet (TaskQueue.processQueue s).tasks tid =
      some { t with status := TaskQueue.TaskStatus.ASSIGNED,
                    assignedTo := some agent.id }
    ∧ ∃ arec, Coord.mapGet
          (TaskQueue.processQueue s).registry.agents agent.id = some arec
        ∧ arec.status = AgentRegistry.AgentStatus.BUSY := by
  have hstep : TaskQueue.assignStep (s, ([] : List String)) tid =
      ({ s with
          tasks := (Coord.mapSet s.tasks tid
            { t with status := TaskQueue.TaskStatus.ASSIGNED,
                     assignedTo := some agent.id }),
          registry := (AgentRegistry.updateStatus s.registry agent.id
            AgentRegistry.AgentStatus.BUSY).1,
          log := s.log ++ (AgentRegistry.updateStatus s.registry agent.id
              AgentRegistry.AgentStatus.BUSY).2
            ++ [AgentRegistry.BusEvent.taskAssigned tid agent.id] },
       [tid]) := by
    unfold TaskQueue.assignStep
    simp only []
    rw [ht]
    simp only []
    rw [if_neg (not_not_intro hp), if_neg (not_not_intro hd), hf]
    rfl
  unfold TaskQueue.processQueue
  rw [hqueue, List.foldl_append, TaskQueue.foldl_skip pre (s, []) hpre,
    List.foldl_cons, hstep]
  constructor
  · have hmid : Coord.mapGet (Coord.mapSet s.tasks tid
        { t with status := TaskQueue.TaskStatus.ASSIGNED,
                 assignedTo := some agent.id }) tid =
        some { t with status := TaskQueue.TaskStatus.ASSIGNED,
                      assignedTo := some agent.id } := by
      rw [Coord.mapGet_mapSet, if_pos rfl]
    obtain ⟨u, hu, he⟩ := TaskQueue.foldl_assignStep_taskEvol post
      ({ s with
          tasks := (Coord.mapSet s.tasks tid
            { t with status := TaskQueue.TaskStatus.ASSIGNED,
                     assignedTo := some agent.id }),
          registry := (AgentRegistry.updateStatus s.registry agent.id
            AgentRegistry.AgentStatus.BUSY).1,
          log := s.log ++ (AgentRegistry.updateStatus s.registry agent.id
              AgentRegistry.AgentStatus.BUSY).2
            ++ [AgentRegistry.BusEvent.taskAssigned tid agent.id] },
       [tid]) tid _ hmid
    rw [he.2.2 (fun hc => TaskQueue.TaskStatus.noConfusion hc)] at hu
    exact hu
  · have hbusy : ∃ rec, Coord.mapGet
        (AgentRegistry.updateStatus s.registry agent.id
          AgentRegistry.AgentStatus.BUSY).1.agents agent.id = some rec
        ∧ rec.status = AgentRegistry.AgentStatus.BUSY := by
      unfold AgentRegistry.updateStatus
      rw [hself]
      simp only []
      refine ⟨{ agent with status := AgentRegistry.AgentStatus.BUSY }, ?_, rfl⟩
      show Coord.mapGet (Coord.mapSet s.registry.agents agent.id
        { agent with status := AgentRegistry.AgentStatus.BUSY }) agent.id = _
      rw [Coord.mapGet_mapSet, if_pos rfl]
    exact TaskQueue.foldl_keeps_busy post
      ({ s with
          tasks := (Coord.mapSet s.tasks tid
            { t with status := TaskQueue.TaskStatus.ASSIGNED,
                     assignedTo := some agent.id }),
          registry := (AgentRegistry.updateStatus s.registry agent.id
            AgentRegistry.AgentStatus.BUSY).1,
          log := s.log ++ (AgentRegistry.updateStatus s.registry agent.id
              AgentRegistry.AgentStatus.BUSY).2
            ++ [AgentRegistry.BusEvent.taskAssigned tid agent.id] },
       [tid]) agent.id hbusy

theorem TaskQueue.depBroken_of_get {tasks : List (String × TaskQueue.Task)}
    {d : String} {v : TaskQueue.Task}
    (h : Coord.mapGet tasks d = some v)
    (hv : ¬ v.status = TaskQueue.TaskStatus.COMPLETED) :
    TaskQueue.depBroken tasks d := by
  intro u hu hc
  rw [h] at hu
  have hvu := Option.some.inj hu
  rw [← hvu] at hc
  exact hv hc

/-- Claim C6: while a task has a dependency that is unknown or not
`COMPLETED`, `processQueue` leaves its record (status, `assignedTo`,
everything) untouched; once all dependencies are `COMPLETED` and the
task is the first assignable backlog entry, `processQueue` assigns it:
status `ASSIGNED`, `assignedTo` set to the first ready worker
advertising the required capability, and that worker set `BUSY`.
Concretely, task_2 (depending on task_1) stays `PENDING` while task_1
is merely assigned, and completing task_1 makes the re-triggered scan
assign task_2 to w, which becomes `BUSY`. -/
theorem claim_c6_dependency_gating :
    (∀ (s : TaskQueue.SysState) (tid : String) (t : TaskQueue.Task)
        (d : String),
      Coord.mapGet s.tasks tid = some t →
      d ∈ t.dependencies →
      TaskQueue.depBroken s.tasks d →
      Coord.mapGet (TaskQueue.processQueue s).tasks tid = some t)
    ∧ (∀ (s : TaskQueue.SysState) (pre post : List String) (tid : String)
        (t : TaskQueue.Task) (agent : AgentRegistry.AgentRecord)
        (others : List AgentRegistry.AgentRecord),
      s.pendingQueue = pre ++ tid :: post →
      (∀ qid ∈ pre, TaskQueue.skipCondition s qid) →
      Coord.mapGet s.tasks tid = some t →
      t.status = TaskQueue.TaskStatus.PENDING →
      TaskQueue.areDependenciesMet s.tasks t = true →
      AgentRegistry.findReadyByCapability s.registry t.requiredCapability =
        agent :: others →
      Coord.mapGet s.registry.agents agent.id = some agent →
      Coord.mapGet (TaskQueue.processQueue s).tasks tid =
        some { t with status := TaskQueue.TaskStatus.ASSIGNED,
                      assignedTo := some agent.id }
      ∧ ∃ arec, Coord.mapGet
            (TaskQueue.processQueue s).registry.agents agent.id = some arec
          ∧ arec.status = AgentRegistry.AgentStatus.BUSY)
    ∧ ((Coord.mapGet TaskQueue.c6Blocked.tasks "task_2").map
          (fun t => (t.status, t.assignedTo)) =
        some (TaskQueue.TaskStatus.PENDING, none)
      ∧ (Coord.mapGet TaskQueue.c6Completed.tasks "task_2").map
          (fun t => (t.status, t.assignedTo)) =
        some (TaskQueue.TaskStatus.ASSIGNED, some "w")
      ∧ (Coord.mapGet TaskQueue.c6Completed.registry.agents "w").map
          (fun a => a.status) = some AgentRegistry.AgentStatus.BUSY) := by
  refine ⟨?_, ?_, by decide⟩
  · intro s tid t d h hmem hb
    exact TaskQueue.processQueue_blocked s tid t d hmem h hb
  · intro s pre post tid t agent others hqueue hpre ht hp hd hf hself
    exact TaskQueue.processQueue_assigns_first s pre post tid t agent others
      hqueue hpre ht hp hd hf hself

theorem claim_c6_witness :
    (Coord.mapGet (TaskQueue.processQueue TaskQueue.c6Submitted).tasks
        "task_2" = some TaskQueue.c6TaskB)
    ∧ (Coord.mapGet (TaskQueue.processQueue TaskQueue.c6ReadyForB).tasks
          "task_2" =
        some { TaskQueue.c6TaskB with
                status := TaskQueue.TaskStatus.ASSIGNED,
                assignedTo := some TaskQueue.wReady.id }
      ∧ ∃ arec, Coord.mapGet
            (TaskQueue.processQueue TaskQueue.c6ReadyForB).registry.agents
            TaskQueue.wReady.id = some arec
          ∧ arec.status = AgentRegistry.AgentStatus.BUSY) :=
  ⟨claim_c6_dependency_gating.1 TaskQueue.c6Submitted "task_2"
      TaskQueue.c6TaskB "task_1" (by decide) (by decide)
      (@TaskQueue.depBroken_of_get TaskQueue.c6Submitted.tasks "task_1"
        TaskQueue.c6TaskA (by decide) (by decide)),
   claim_c6_dependency_gating.2.1 TaskQueue.c6ReadyForB [] [] "task_2"
      TaskQueue.c6TaskB TaskQueue.wReady [] (by decide)
      (fun qid hq => absurd hq (List.not_mem_nil qid))
      (by decide) (by decide) (by decide) (by decide) (by decide)⟩
